import Mathlib

/-
Verification development for the Pokemon_Champions battle simulator.

The repository contains two battle drivers:
  * the "core" engine (pokemon-battle-core/src/sim/…), whose battlers keep
    HP as u16 and whose damage pipeline uses Showdown-style 4096-based
    fixed-point arithmetic (sim/damage.rs), and
  * a "simplified" driver (src/battle.rs at the crate root), whose battlers
    keep HP as i32 and compute damage in plain f32.

Shallow-embedding conventions used throughout this file:
  * unsigned machine integers are ℕ; wrapping is written `% 2^w` and
    saturating arithmetic is written with `min`/`max` exactly where the
    source uses `saturating_*` or an `as` cast that saturates;
  * `i32` quantities that can actually go negative (the simplified
    driver's HP) are ℤ;
  * f32 modifier constants that are consumed through the fixed-point
    `(m * 4096.0).floor()` conversion are represented by their fixed-point
    numerator `⌊m·4096⌋ : ℕ` (multiplication of an f32 by 4096.0 is exact,
    so this loses nothing); the only genuine f32 multiplication on the
    damage path, `(base as f32 * 1.5).floor()`, is modelled exactly,
    including both round-to-nearest-even conversions (`rne24` below), and
    the u64→f32 conversion of `chain_modifier`'s return value is modelled
    by the same rounding;
  * the f32 random factor is consumed by the source only through
    `(random_factor * 100.0).round().clamp(85,100)`, so the embedding takes
    the already-rounded integer percentage as the argument;
  * other f32 multiplications by small rational constants (stage
    multipliers, residual fractions) are modelled as exact rational
    arithmetic with `Int.floor` at each cast; on the u16-sized ranges the
    source feeds them, the dyadic constants involved make f32 exact.
-/

namespace PokemonSim

/-! ## Fixed-point modifier arithmetic (pokemon-battle-core/src/sim/damage.rs) -/

/-- Base-two logarithm by structural recursion on a fuel argument so that
the kernel can evaluate it; `log2fuel 64 n = ⌊log₂ n⌋` for every
`0 < n < 2^64`. -/
def log2fuel : ℕ → ℕ → ℕ
  | 0, _ => 0
  | fuel + 1, n => if n < 2 then 0 else log2fuel fuel (n / 2) + 1

/-- Round-to-nearest-even of a natural number `n` onto the multiples of
`2^k` (the rounding step of an f32 conversion whose unit in the last
place is `2^k`). -/
def rneStep (n k : ℕ) : ℕ :=
  if k = 0 then n
  else
    let q := n / 2 ^ k
    let r := n % 2 ^ k
    let h := 2 ^ (k - 1)
    (if h < r ∨ (r = h ∧ q % 2 = 1) then q + 1 else q) * 2 ^ k

/-- Round-to-nearest-even of a natural number to an f32 (24 significand
bits): exact below `2^24`, otherwise rounded onto multiples of
`2^(bits-24)`. -/
def rne24 (n : ℕ) : ℕ :=
  if n < 2 ^ 24 then n else rneStep n (log2fuel 64 n + 1 - 24)

/-- Embedding of `chain_modifier` (damage.rs lines 24-30) on the fixed-point
numerators `A = ⌊previous·4096⌋`, `B = ⌊next·4096⌋` held in `u64`: the
source computes `(previous * next + 2048) >> 12` in wrapping u64
arithmetic and returns `chained as f32 / 4096.0`.  The division by 4096.0
is exact, and the consumer of the returned f32 (the next `chain` or
`apply_modifier`) re-extracts the numerator with `(x * 4096.0).floor()`,
which is likewise exact, so the f32 round-trip amounts to rounding the
integer `chained` to the nearest 24-bit-significand value, ties to even —
the `rne24` step above.  `chain_modifier A B` is therefore the
fixed-point numerator of the f32 the source returns. -/
def chain_modifier (A B : ℕ) : ℕ :=
  rne24 (((A * B + 2048) % 2 ^ 64) / 4096)

/-- Embedding of `apply_modifier` (damage.rs lines 32-40) on the fixed-point
numerator `M = ⌊modifier·4096⌋ : u64` (the `modifier <= 0.0` guard of the
source returns 0, which coincides with the `M = 0` case of this formula):
`(value * modifier + 2048 - 1) / 4096` in wrapping u64 arithmetic, then
cast back to u32. -/
def apply_modifier (value M : ℕ) : ℕ :=
  (((value * M + 2047) % 2 ^ 64) / 4096) % 2 ^ 32

/-- Embedding of `apply_random_factor` (damage.rs lines 42-47).  The f32
argument is consumed only through `(random_factor * 100.0).round()`; the
embedding takes that integer `percent` directly, clamps it into `85..=100`
and computes `value.saturating_mul(percent) / 100` on u32. -/
def apply_random_factor (value percent : ℕ) : ℕ :=
  min (value * min (max percent 85) 100) (2 ^ 32 - 1) / 100

/-- The six type-effectiveness values `{0, 1/4, 1/2, 1, 2, 4}` that
`effectiveness_dual` can produce (products of two entries of the type
chart `{0, 1/2, 1, 2}`); every one of them hits one of the explicit
equality branches of `type_effectiveness_steps` in damage.rs. -/
inductive TypeEff
  | x0
  | x0_25
  | x0_5
  | x1
  | x2
  | x4
deriving DecidableEq

/-- Embedding of `type_effectiveness_steps` (damage.rs lines 49-63) on the
six reachable effectiveness values (the `ln`-based fallback branch is
unreachable for them). -/
def type_effectiveness_steps : TypeEff → ℤ
  | .x0 => 0
  | .x0_25 => -2
  | .x0_5 => -1
  | .x1 => 0
  | .x2 => 1
  | .x4 => 2

/-- Embedding of `apply_type_effectiveness` (damage.rs lines 65-77):
zero effectiveness short-circuits to 0; positive steps are a saturating
u32 multiplication by `1 << steps`; negative steps divide. -/
def apply_type_effectiveness (value : ℕ) (eff : TypeEff) : ℕ :=
  if eff = TypeEff.x0 then 0
  else
    let steps := type_effectiveness_steps eff
    if 0 < steps then min (value * 2 ^ steps.toNat) (2 ^ 32 - 1)
    else if steps < 0 then value / 2 ^ (-steps).toNat
    else value

/-- Embedding of `compute_base_damage` (damage.rs lines 79-96):
`2*level/5 + 2`, then saturating u32 multiplications by power and attack,
then division by `defense.max(1)` and by 50. -/
def compute_base_damage (level atk defStat power : ℕ) : ℕ :=
  let defense := max defStat 1
  let b := 2 * level / 5 + 2
  let b := min (b * power) (2 ^ 32 - 1)
  let b := min (b * atk) (2 ^ 32 - 1)
  b / defense / 50

/-- Exact model of `((base_damage as f32) * 1.5).floor() as u32`
(damage.rs line 123, the only crit value the engine passes besides 1.0 is
1.5): convert `b` to f32 (`rne24`), multiply by 3/2 in half-units and
round the product to f32 again (`t` half-units are exact in f32 iff
`t < 2^24`), floor away the possible half, and saturate the `as u32`
cast. -/
def critMul15 (b : ℕ) : ℕ :=
  let b' := rne24 b
  let t := 3 * b'
  let t' := if t < 2 ^ 24 then t else rneStep t (log2fuel 64 t + 1 - 24)
  min (t' / 2) (2 ^ 32 - 1)

/-- Modifier bundle of `DamageModifiers` (damage.rs lines 5-11); `weather`,
`burn` and `finalModifier` are fixed-point numerators (`4096` = ×1.0) and
the crit field is the boolean `modifiers.crit == 1.5` (the source checks
`(crit - 1.0).abs() > EPSILON` and the engine only ever passes 1.0 or
1.5). -/
structure DamageModifiers where
  weather : ℕ
  crit : Bool
  burn : ℕ
  finalModifier : ℕ
deriving DecidableEq

/-- The `Default` instance of `DamageModifiers`: every modifier ×1.0. -/
def defaultModifiers : DamageModifiers :=
  { weather := 4096, crit := false, burn := 4096, finalModifier := 4096 }

/-- The damage pipeline of `calculate_damage_with_modifiers` (damage.rs
lines 98-142) up to and including the final chained modifier, i.e. the u32
value reaching the `if base_damage == 0 { return 1 }` / `& 0xFFFF` step:
base damage, `saturating_add(2)`, weather modifier, crit ×1.5, random
factor, STAB ×1.5 (`⌊1.5·4096⌋ = 6144`), type effectiveness, burn
modifier, final modifier. -/
def damage_pre_mask (level atk defStat power : ℕ) (eff : TypeEff)
    (useStab : Bool) (percent : ℕ) (m : DamageModifiers) : ℕ :=
  let b := compute_base_damage level atk defStat power
  let b := min (b + 2) (2 ^ 32 - 1)
  let b := apply_modifier b m.weather
  let b := if m.crit then critMul15 b else b
  let b := apply_random_factor b percent
  let b := if useStab then apply_modifier b 6144 else b
  let b := apply_type_effectiveness b eff
  let b := apply_modifier b m.burn
  apply_modifier b m.finalModifier

/-- Embedding of `calculate_damage_with_modifiers` (damage.rs lines
98-142): zero type effectiveness short-circuits to 0; a zero pipeline
result returns 1 (the minimum-damage rule); otherwise the u32 result is
truncated to u16 by `& 0xFFFF`. -/
def calculate_damage_with_modifiers (level atk defStat power : ℕ)
    (eff : TypeEff) (useStab : Bool) (percent : ℕ) (m : DamageModifiers) : ℕ :=
  if eff = TypeEff.x0 then 0
  else if damage_pre_mask level atk defStat power eff useStab percent m = 0 then 1
  else damage_pre_mask level atk defStat power eff useStab percent m % 2 ^ 16

/-! ## Stat computation (pokemon-battle-core/src/sim/stats.rs) -/

/-- Embedding of `calc_stat` (stats.rs lines 85-91): `ev/4`, the u16
products `(base*2 + iv + ev/4) * level` (wrapping at 2^16), `/100`, `+5`,
then the f32 nature multiplication floored and cast back to u16
(saturating). -/
def calc_stat (base iv ev level : ℕ) (natureMod : ℚ) : ℕ :=
  let evQuarter := ev / 4
  let baseValue := (base * 2 + iv + evQuarter) % 2 ^ 16
  let intermediate := baseValue * level % 2 ^ 16 / 100
  min (Int.toNat ⌊((intermediate + 5 : ℕ) : ℚ) * natureMod⌋) (2 ^ 16 - 1)

/-! ## Core battler state (pokemon-battle-core/src/sim/pokemon.rs) -/

/-- Embedding of `Pokemon::take_damage` (pokemon.rs lines 118-120) on the
u16 current HP: `saturating_sub`, which is exactly ℕ subtraction. -/
def take_damage (hp dmg : ℕ) : ℕ := hp - dmg

/-- Embedding of `Pokemon::is_fainted` (pokemon.rs lines 122-124):
`current_hp == 0`. -/
def core_is_fainted (hp : ℕ) : Bool := hp == 0

/-- The core engine's healing pattern
`current_hp = (current_hp + amount).min(stats.hp)` (used by wish, grassy
terrain, leftovers, poison heal, … in sim/battle.rs). -/
def clamp_heal (hp maxHp amount : ℕ) : ℕ := min (hp + amount) maxHp

/-- Embedding of the `Status::Poison` arm of `apply_end_of_turn_effects`
(pokemon-battle-core/src/sim/battle.rs lines 1436-1460), returning the new
`(current_hp, toxic_counter)` pair.  With Poison Heal the battler heals
`max(maxHp/8, 1)` capped at max HP; a badly-poisoned battler
(`toxic_counter > 0`) takes `max(maxHp·counter/16, 1)` and the counter
saturates at 15 (`saturating_add(1).min(15)`); a regularly poisoned
battler (`toxic_counter = 0`) takes `max(maxHp/8, 1)`. -/
def coreApplyPoisonResidual (hp maxHp counter : ℕ) (poisonHeal : Bool) :
    ℕ × ℕ :=
  if poisonHeal then (clamp_heal hp maxHp (max (maxHp / 8) 1), counter)
  else if 0 < counter then
    (take_damage hp (max (maxHp * counter / 16) 1), min (counter + 1) 15)
  else (take_damage hp (max (maxHp / 8) 1), counter)

/-! ## Simplified driver battler state (src/battle.rs at the crate root) -/

/-- Major status conditions of the simplified driver
(src/model.rs `StatusCondition`). -/
inductive SrcStatus
  | burn
  | paralysis
  | sleep
  | poison
  | toxic
  | freeze
deriving DecidableEq

/-- The slice of the simplified driver's battler state read and written by
the status-residual part of `Battle::end_of_turn` (src/battle.rs lines
1258-1282): `current_hp : i32` (note the signed type), max HP, status, and
the u8 toxic counter. -/
structure SrcResidualState where
  hp : ℤ
  maxHp : ℕ
  status : Option SrcStatus
  toxicCounter : ℕ
deriving DecidableEq

/-- Embedding of the status-residual loop body of `Battle::end_of_turn`
(src/battle.rs lines 1259-1282) for one battler: burn and poison deduct
`(max_hp as f32 * 0.0625) as i32 = ⌊maxHp/16⌋` (the f32 product is exact),
toxic deducts `⌊maxHp·max(counter,1)/16⌋`, the subtraction on the i32 HP
is unclamped, and afterwards a toxic battler's counter is incremented with
`saturating_add` on u8 (i.e. capped at 255). -/
def srcStatusResidual (s : SrcResidualState) : SrcResidualState :=
  let dmg : ℤ :=
    match s.status with
    | some .burn => (s.maxHp / 16 : ℕ)
    | some .poison => (s.maxHp / 16 : ℕ)
    | some .toxic => (s.maxHp * max s.toxicCounter 1 / 16 : ℕ)
    | _ => 0
  let counter :=
    if s.status = some SrcStatus.toxic then min (s.toxicCounter + 1) 255
    else s.toxicCounter
  { s with hp := s.hp - dmg, toxicCounter := counter }

/-! ## Case-insensitive identifiers (eq_ignore_ascii_case / normalization) -/

/-- ASCII lower-casing of one character, the per-character operation of
Rust's `eq_ignore_ascii_case` and `to_ascii_lowercase`. -/
def asciiLower (c : Char) : Char :=
  if 65 ≤ c.toNat ∧ c.toNat ≤ 90 then Char.ofNat (c.toNat + 32) else c

/-- Embedding of `str::eq_ignore_ascii_case`. -/
def eqIgnoreAsciiCase (a b : String) : Bool :=
  a.data.map asciiLower == b.data.map asciiLower

/-- ASCII alphanumeric test on a character (`char::is_ascii_alphanumeric`). -/
def isAsciiAlnum (c : Char) : Bool :=
  (48 ≤ c.toNat ∧ c.toNat ≤ 57) ∨ (97 ≤ c.toNat ∧ c.toNat ≤ 122) ∨
    (65 ≤ c.toNat ∧ c.toNat ≤ 90)

/-- Embedding of `normalize_item_name` (sim/items/battle_items.rs lines
123-128): lowercase, then keep only ASCII alphanumerics. -/
def normalize_item_name (s : String) : String :=
  ⟨(s.data.map asciiLower).filter isAsciiAlnum⟩

/-! ## Choice items and move-index resolution (core engine) -/

/-- Embedding of `is_choice_item_id` (sim/items/battle_items.rs lines
17-19). -/
def is_choice_item_id (id : String) : Bool :=
  id == "choiceband" || id == "choicespecs" || id == "choicescarf"

/-- The guard `!attacker.item_consumed && item_id(attacker).as_deref()
.is_some_and(battle_items::is_choice_item_id)` of `execute_move_impl`
(sim/battle.rs line 1670), where `item_id` is
`pokemon.item.as_ref().map(normalize_item_name)`
(sim/items/consumable.rs lines 11-13). -/
def optItemIsChoice (item : Option String) : Bool :=
  match item with
  | some it => is_choice_item_id (normalize_item_name it)
  | none => false

/-- The slice of the attacker state read by the move-index resolution of
`execute_move_impl` (sim/battle.rs lines 1669-1696). -/
structure MoveResolveCtx where
  itemConsumed : Bool
  item : Option String
  choiceLockMove : Option String
  encoreTurns : ℕ
  encoreMove : Option String
  moves : List String
deriving DecidableEq

/-- Embedding of the `resolved_idx` computation of `execute_move_impl`
(sim/battle.rs lines 1669-1696): with an unconsumed choice item and a
recorded `choice_lock_move` that is found (by exact string equality) in
the move list, the submitted index is replaced by the locked move's index;
afterwards an active encore overrides it again the same way. -/
def resolved_move_index (c : MoveResolveCtx) (moveIdx : ℕ) : ℕ :=
  let r1 :=
    if !c.itemConsumed && optItemIsChoice c.item then
      match c.choiceLockMove with
      | some locked =>
        match c.moves.findIdx? (fun name => name == locked) with
        | some i => i
        | none => moveIdx
      | none => moveIdx
    else moveIdx
  if 0 < c.encoreTurns then
    match c.encoreMove with
    | some e =>
      match c.moves.findIdx? (fun name => name == e) with
      | some j => j
      | none => r1
    | none => r1
  else r1

/-! ## Core effective speed (pokemon-battle-core/src/sim/battle.rs 470-483) -/

/-- Weather of the core engine (sim/battle.rs lines 32-37). -/
inductive Weather
  | sun
  | rain
  | sand
  | hail
deriving DecidableEq

/-- Major status of the core engine (sim/pokemon.rs lines 8-16). -/
inductive CoreStatus
  | burn
  | paralysis
  | poison
  | sleep
  | freeze
  | flinch
deriving DecidableEq

/-- The slice of a core `Pokemon` read by `effective_speed`. -/
structure SpeedPokemon where
  spe : ℕ
  speStage : ℤ
  status : Option CoreStatus
  ability : String
  item : Option String
  itemConsumed : Bool

/-- Embedding of `Pokemon::has_ability`
(`ability.eq_ignore_ascii_case(name)`, sim/pokemon.rs lines 175-177). -/
def hasAbility (p : SpeedPokemon) (name : String) : Bool :=
  eqIgnoreAsciiCase p.ability name

/-- Embedding of `stage_multiplier` (sim/battle.rs lines 485-491) as an
exact rational: `(2+stage)/2` for non-negative stages, `2/(2-stage)`
otherwise. -/
def stage_multiplier (stage : ℤ) : ℚ :=
  if 0 ≤ stage then (2 + stage : ℤ) / 2 else 2 / (2 - stage : ℤ)

/-- Embedding of `apply_stage_multiplier` (sim/battle.rs lines 501-504):
`((base as f32) * stage_multiplier(stage)).floor().max(1.0) as u16`
(the cast saturates at 65535). -/
def apply_stage_multiplier (base : ℕ) (stage : ℤ) : ℕ :=
  min (max (Int.toNat ⌊(base : ℚ) * stage_multiplier stage⌋) 1) 65535

namespace misc_abilities

/-- Embedding of `speed_multiplier` (sim/abilities/misc_abilities.rs lines
62-76): Slow Start halves; Quick Feet with any status gives ×1.5; Swift
Swim in rain and Chlorophyll in sun double. -/
def speed_multiplier (p : SpeedPokemon) (isRain isSun : Bool) : ℚ :=
  if hasAbility p "Slow Start" then 1 / 2
  else if hasAbility p "Quick Feet" && p.status.isSome then 3 / 2
  else if hasAbility p "Swift Swim" && isRain then 2
  else if hasAbility p "Chlorophyll" && isSun then 2
  else 1

end misc_abilities

namespace weather_field

/-- Embedding of `weather_speed_multiplier` (sim/weather_field.rs lines
97-103): Sand Rush in sand and Slush Rush in hail double the speed. -/
def weather_speed_multiplier (p : SpeedPokemon) (w : Option Weather) : ℚ :=
  match w with
  | some .sand => if hasAbility p "Sand Rush" then 2 else 1
  | some .hail => if hasAbility p "Slush Rush" then 2 else 1
  | _ => 1

end weather_field

namespace battle_items

/-- Embedding of `battle_items::speed_modifier` (sim/items/battle_items.rs
lines 21-29): an unconsumed Choice Scarf gives ×1.5. -/
def speed_modifier (p : SpeedPokemon) : ℚ :=
  if p.itemConsumed then 1
  else
    match p.item.map normalize_item_name with
    | some id => if id == "choicescarf" then 3 / 2 else 1
    | none => 1

end battle_items

/-- Embedding of `effective_speed` (sim/battle.rs lines 470-483): stage
multiplier (floored, min 1, u16-saturated), then the paralysis halving
`((spe as f32) * 0.5).floor() as u16 = spe/2` unless the ability is Quick
Feet, then the product of the ability, weather-ability and item
multipliers, floored and cast to u16. -/
def effective_speed (p : SpeedPokemon) (w : Option Weather) : ℕ :=
  let spe := apply_stage_multiplier p.spe p.speStage
  let spe :=
    if p.status = some CoreStatus.paralysis && !hasAbility p "Quick Feet" then
      spe / 2
    else spe
  let sm := misc_abilities.speed_multiplier p
    (decide (w = some Weather.rain)) (decide (w = some Weather.sun))
  let wm := weather_field.weather_speed_multiplier p w
  let im := battle_items.speed_modifier p
  min (Int.toNat ⌊(spe : ℚ) * sm * wm * im⌋) 65535

/-! ## Simplified driver: actions, legal-action enumeration, resolve_move -/

/-- `PlayerAction` of the simplified driver (src/battle.rs lines 70-74). -/
inductive SrcAction
  | move (idx : ℕ)
  | switch (idx : ℕ)
deriving DecidableEq

/-- The slice of the simplified driver's battler read by `legal_actions`
and `resolve_move`: the move list (identified by name), the per-move PP
vector (`i32`, possibly shorter — missing entries read as 0), and the
choice lock. -/
structure SrcBattlerLA where
  moves : List String
  movePp : List ℤ
  choiceLock : Option ℕ
deriving DecidableEq

/-- The `usable` binding of `Battle::legal_actions` (src/battle.rs lines
559-564): the move indices whose `move_pp.get(i).unwrap_or(0)` is
positive. -/
def usable_indices (b : SrcBattlerLA) : List ℕ :=
  (List.range b.moves.length).filter fun i => decide (0 < b.movePp.getD i 0)

/-- Embedding of `Battle::legal_actions` (src/battle.rs lines 553-574):
an empty move list yields no actions; otherwise the usable indices are
those with `move_pp.get(i).unwrap_or(0) > 0`; if none is usable the list
is empty; a choice lock whose PP is still positive narrows the list to
just the locked move; only `Move` actions are ever produced. -/
def legal_actions (b : SrcBattlerLA) : List SrcAction :=
  if b.moves.isEmpty then []
  else if (usable_indices b).isEmpty then []
  else
    match b.choiceLock with
    | some lock =>
      if 0 < b.movePp.getD lock 0 then [SrcAction.move lock]
      else (usable_indices b).map SrcAction.move
    | none => (usable_indices b).map SrcAction.move

/-- MCTS branching modes (src/mcts.rs lines 9-15). -/
inductive MctsMode
  | joint
  | myActionOnly
deriving DecidableEq

/-- Embedding of `enumerate_actions` (src/mcts.rs lines 168-209) given the
two legal-action lists: `Joint` takes the cartesian product, with an empty
list replaced by the single absent action `none`; `MyActionOnly` pairs
each of my actions with `none`. -/
def enumerate_actions (myActs oppActs : List SrcAction) (mode : MctsMode) :
    List (Option SrcAction × Option SrcAction) :=
  match mode with
  | .joint =>
    let myList := if myActs.isEmpty then [none] else myActs.map some
    let oppList := if oppActs.isEmpty then [none] else oppActs.map some
    myList.flatMap fun my => oppList.map fun opp => (my, opp)
  | .myActionOnly =>
    if myActs.isEmpty then [(none, none)]
    else myActs.map fun a => (some a, none)

/-- Embedding of `Battle::resolve_move` (src/battle.rs lines 904-911),
returning the index of the move that will be executed (`none` = the
struggle fallback).  The function reads only the battler's move list: in
particular it does not consult `choice_lock`. -/
def resolve_move (b : SrcBattlerLA) (idx : Option ℕ) : Option ℕ :=
  match idx with
  | some i => if i < b.moves.length then some i else none
  | none => none

/-! ## MCTS root-action selection (src/mcts.rs lines 298-316) -/

/-- One aggregate of `best_root_action`: a root `my`-action together with
the summed `total_value` and summed `visits` of the root children sharing
it (`f64` values modelled as exact rationals). -/
structure RootAgg where
  act : Option SrcAction
  total : ℚ
  visits : ℕ
deriving DecidableEq

/-- Mean value `total_value / visits` of one aggregate. -/
def aggMean (e : RootAgg) : ℚ := e.total / (e.visits : ℚ)

/-- One step of `Iterator::max_by` under the mean-value comparison of
`best_root_action`: keep the accumulator only when its mean is strictly
greater, so later elements win ties. -/
def maxByMeanStep (b e : RootAgg) : RootAgg :=
  if aggMean e < aggMean b then b else e

/-- `Iterator::max_by` over the aggregates under the mean-value
comparison (src/mcts.rs lines 309-313). -/
def maxByMean : List RootAgg → Option RootAgg
  | [] => none
  | x :: xs => some (xs.foldl maxByMeanStep x)

/-- Embedding of `best_root_action` (src/mcts.rs lines 298-316) given the
per-`my`-action aggregates in some iteration order of the hash map:
aggregates with zero visits are dropped, the maximal aggregate by mean
value (`entry.0 / entry.1`) is selected, and if nothing was visited the
fallback is the `my` component of the first unexpanded joint action. -/
def best_root_action (children : List RootAgg)
    (unexpanded : List (Option SrcAction × Option SrcAction)) :
    Option SrcAction :=
  match maxByMean (children.filter fun e => decide (0 < e.visits)) with
  | some b => b.act
  | none => unexpanded.head?.bind fun a => a.1

/-! ## Theorems -/

/-- Helper: below 2^24 the f32 rounding of an integer is exact. -/
theorem rne24_eq_of_lt (n : ℕ) (h : n < 2 ^ 24) : rne24 n = n := by
  unfold rne24
  rw [if_pos h]

/-- Helper: when the fixed-point product is an exact multiple of 4096
that fits in u64 and whose quotient is below 2^24 (so the f32 round-trip
of the returned value is exact), `chain_modifier` computes the quotient
exactly (the `+2048` rounding term vanishes under the floor). -/
theorem chain_modifier_of_dvd (A B k : ℕ) (hk : A * B = 4096 * k)
    (hq : k < 2 ^ 24) (hlt : A * B + 2048 < 2 ^ 64) :
    chain_modifier A B = k := by
  unfold chain_modifier
  rw [hk] at hlt ⊢
  rw [Nat.mod_eq_of_lt hlt]
  have hdiv : (4096 * k + 2048) / 4096 = k := by omega
  rw [hdiv, rne24_eq_of_lt k hq]

/-- C9, counterexample: the chain operator is not associative.  With the
fixed-point values `A = 1` (`a = 1/4096`), `B = C = 2048` (`b = c = 0.5`):
`chain(chain(a,b),c) = 1/4096` but `chain(a,chain(b,c)) = 0`, because
`chain(1,2048) = 1` while `chain(2048,2048) = 1024` and
`chain(1,1024) = 0`.  All values are below 2^24, so the f32 round-trips
between the chained values are exact. -/
theorem C9_counterexample :
    chain_modifier (chain_modifier 1 2048) 2048 = 1 ∧
    chain_modifier 1 (chain_modifier 2048 2048) = 0 ∧
    chain_modifier (chain_modifier 1 2048) 2048 ≠
      chain_modifier 1 (chain_modifier 2048 2048) := by decide

/-- C9, amended: `chain` is associative whenever no rounding occurs at
either intermediate step: both fixed-point products `A·B` and `B·C` are
exact multiples of 4096 (so the `+2048` floor rounds nothing) and both
are below 2^36 (so each intermediate chained numerator is below 2^24 and
survives the return value's f32 round-trip exactly); in general either
rounding — the fixed-point floor or the f32 conversion of an intermediate
chained value at or above 2^24 — can break associativity. -/
theorem C9_chain_assoc_of_dvd (A B C : ℕ) (hA : A < 2 ^ 24) (hB : B < 2 ^ 24)
    (hC : C < 2 ^ 24) (hab : 4096 ∣ A * B) (hbc : 4096 ∣ B * C)
    (habSmall : A * B < 2 ^ 36) (hbcSmall : B * C < 2 ^ 36) :
    chain_modifier (chain_modifier A B) C =
      chain_modifier A (chain_modifier B C) := by
  obtain ⟨k, hk⟩ := hab
  obtain ⟨m, hm⟩ := hbc
  have hk24 : k < 2 ^ 24 := by omega
  have hm24 : m < 2 ^ 24 := by omega
  have hABlt : A * B + 2048 < 2 ^ 64 := by
    have h := Nat.mul_lt_mul'' hA hB
    omega
  have hBClt : B * C + 2048 < 2 ^ 64 := by
    have h := Nat.mul_lt_mul'' hB hC
    omega
  rw [chain_modifier_of_dvd A B k hk hk24 hABlt,
    chain_modifier_of_dvd B C m hm hm24 hBClt]
  have hkm : k * C = A * m := by
    have h1 : 4096 * (k * C) = 4096 * (A * m) := by
      calc 4096 * (k * C) = (4096 * k) * C := by ring
        _ = (A * B) * C := by rw [hk]
        _ = A * (B * C) := by ring
        _ = A * (4096 * m) := by rw [hm]
        _ = 4096 * (A * m) := by ring
    exact Nat.eq_of_mul_eq_mul_left (by norm_num) h1
  have h3 : k * C + 2048 < 2 ^ 64 := by
    have h := Nat.mul_lt_mul'' hk24 hC
    omega
  have h4 : A * m + 2048 < 2 ^ 64 := by
    have h := Nat.mul_lt_mul'' hA hm24
    omega
  unfold chain_modifier
  rw [Nat.mod_eq_of_lt h3, Nat.mod_eq_of_lt h4, hkm]

/-- Witness for C9 at `A = B = C = 4096` (all modifiers ×1.0):
both products are multiples of 4096, both intermediates stay in the
exact range, and both associations give 4096. -/
theorem C9_witness :
    chain_modifier (chain_modifier 4096 4096) 4096 =
      chain_modifier 4096 (chain_modifier 4096 4096) :=
  C9_chain_assoc_of_dvd 4096 4096 4096 (by norm_num) (by norm_num)
    (by norm_num) (by norm_num) (by norm_num) (by norm_num) (by norm_num)

/-- C8, counterexample: `modify` is not the ceiling.  At `value = 1` and
`m = 1.5` (fixed-point numerator `M = ⌊1.5·4096⌋ = 6144`) the source
computes `(1·6144 + 2047)/4096 = 1`, while the claimed ceiling
`⌈1·6144/4096⌉ = (1·6144 + 4095)/4096 = 2`. -/
theorem C8_counterexample :
    apply_modifier 1 6144 = 1 ∧ (1 * 6144 + 4096 - 1) / 4096 = 2 ∧
    apply_modifier 1 6144 ≠ (1 * 6144 + 4096 - 1) / 4096 := by decide

/-- C8, amended: for every u32 value and fixed-point modifier numerator
`M = ⌊m·4096⌋` with `m > 0`, provided the u64 intermediate and the u32
result do not overflow, `modify(value, m)` equals
`⌊(value·M + 2048 − 1)/4096⌋` — i.e. it rounds `value·M/4096` to the
nearest integer with ties rounded down (the two inequalities), not to the
ceiling. -/
theorem C8_apply_modifier_round_half_down (v M : ℕ)
    (h64 : v * M + 2047 < 2 ^ 64) (h32 : (v * M + 2047) / 4096 < 2 ^ 32) :
    apply_modifier v M = (v * M + 2047) / 4096 ∧
    4096 * apply_modifier v M ≤ v * M + 2047 ∧
    v * M + 2047 < 4096 * (apply_modifier v M + 1) := by
  unfold apply_modifier
  rw [Nat.mod_eq_of_lt h64, Nat.mod_eq_of_lt h32]
  omega

/-- Witness for C8 at `value = 80`, `m = 1.5` (`M = 6144`):
`modify(80, 1.5) = ⌊(80·6144 + 2047)/4096⌋ = 120`. -/
theorem C8_witness : apply_modifier 80 6144 = (80 * 6144 + 2047) / 4096 :=
  (C8_apply_modifier_round_half_down 80 6144 (by norm_num) (by norm_num)).1

/-- C3, counterexample: feeding the damage pipeline the stats stated by
the claim — `Atk = 189`, `Def = 106`, level 50, 100-power STAB move,
type effectiveness ×4, all other modifiers 1 — yields 480 at the maximum
roll and 408 at the minimum roll, not the claimed 324 and 268. -/
theorem C3_counterexample :
    calculate_damage_with_modifiers 50 189 106 100 TypeEff.x4 true 100
        defaultModifiers = 480 ∧
    calculate_damage_with_modifiers 50 189 106 100 TypeEff.x4 true 85
        defaultModifiers = 408 ∧
    (480 : ℕ) ≠ 324 ∧ (408 : ℕ) ≠ 268 := by decide

/-- C3, amended: the builds of the repository's own ground-truth test
(`test_showdown_damage_garchomp_earthquake_heatran`) have `Atk = 150`
(base 130, 31 IVs, 0 EVs, level 50, neutral nature) and `Def = 126`
(base 106, same build), and with those pipeline inputs the computed
damage is 324 at the maximum roll and 268 at the ×0.85 minimum roll. -/
theorem C3_garchomp_heatran_damage :
    calc_stat 130 31 0 50 1 = 150 ∧ calc_stat 106 31 0 50 1 = 126 ∧
    calculate_damage_with_modifiers 50 150 126 100 TypeEff.x4 true 100
        defaultModifiers = 324 ∧
    calculate_damage_with_modifiers 50 150 126 100 TypeEff.x4 true 85
        defaultModifiers = 268 := by
  refine ⟨?_, ?_, by decide, by decide⟩
  · unfold calc_stat
    norm_num
    decide
  · unfold calc_stat
    norm_num
    decide

/-- C4, counterexample: the minimum-damage rule can be defeated by the
final u16 truncation.  With level 50, `Atk = 49647`, `Def = 1`, a 3-power
move, neutral type effectiveness (> 0) and the maximum roll, the pipeline
reaches exactly 65536 and `& 0xFFFF` returns 0 < 1. -/
theorem C4_counterexample :
    TypeEff.x1 ≠ TypeEff.x0 ∧ (0 : ℕ) < 3 ∧
    calculate_damage_with_modifiers 50 49647 1 3 TypeEff.x1 false 100
      defaultModifiers = 0 := by decide

/-- C4, amended: for every input with positive type effectiveness and
positive base power, the returned damage is at least 1 provided the u32
value reaching the final truncation step is below 2^16; only a pipeline
value that is a positive multiple of 65536 can be truncated to 0. -/
theorem C4_min_damage (level atk defStat power percent : ℕ) (eff : TypeEff)
    (useStab : Bool) (m : DamageModifiers) (heff : eff ≠ TypeEff.x0)
    (hpow : 0 < power)
    (hfit : damage_pre_mask level atk defStat power eff useStab percent m < 2 ^ 16) :
    1 ≤ calculate_damage_with_modifiers level atk defStat power eff useStab
        percent m := by
  unfold calculate_damage_with_modifiers
  rw [if_neg heff]
  by_cases hd : damage_pre_mask level atk defStat power eff useStab percent m = 0
  · rw [if_pos hd]
  · rw [if_neg hd, Nat.mod_eq_of_lt hfit]
    omega

/-- Witness for C4 at the engine's own reference computation
(level 50, Atk 120, Def 100, 90 power, neutral effectiveness): damage is
at least 1. -/
theorem C4_witness :
    1 ≤ calculate_damage_with_modifiers 50 120 100 90 TypeEff.x1 false 100
        defaultModifiers :=
  C4_min_damage 50 120 100 90 100 TypeEff.x1 false defaultModifiers
    (by decide) (by decide) (by decide)

/-- C1, counterexample: in the simplified driver the end-of-turn poison
residual subtracts from the signed i32 HP without clamping.  A poisoned
battler at 5/160 HP ends the residual at −5: the invariant `0 ≤ HP` fails,
and `HP = 0 ⇔ fainted` fails as well since the driver's faint test is
`HP ≤ 0`. -/
theorem C1_counterexample :
    (srcStatusResidual ⟨5, 160, some SrcStatus.poison, 0⟩).hp = -5 ∧
    ¬ 0 ≤ (srcStatusResidual ⟨5, 160, some SrcStatus.poison, 0⟩).hp ∧
    (srcStatusResidual ⟨5, 160, some SrcStatus.poison, 0⟩).hp ≤ 0 ∧
    (srcStatusResidual ⟨5, 160, some SrcStatus.poison, 0⟩).hp ≠ 0 := by decide

/-- C1, amended: in the core engine HP is an unsigned u16, damage is
applied with a saturating subtraction and healing is capped at max HP, so
after `take_damage` (optionally followed by a heal) the HP stays in
`[0, max]` and `is_fainted` holds exactly when HP = 0.  (In the simplified
driver HP is a signed i32 that residuals and damage can push below zero,
and fainted there means HP ≤ 0.) -/
theorem C1_core_hp_bounds (hp maxHp dmg amount : ℕ) (h : hp ≤ maxHp) :
    take_damage hp dmg ≤ maxHp ∧
    clamp_heal (take_damage hp dmg) maxHp amount ≤ maxHp ∧
    (core_is_fainted (take_damage hp dmg) = true ↔ take_damage hp dmg = 0) := by
  unfold take_damage clamp_heal core_is_fainted
  refine ⟨by omega, by omega, by simp⟩

/-- Witness for C1: a battler at 3/10 HP taking 10 damage ends at 0 HP,
stays within bounds after a 4-point heal attempt, and is fainted exactly
because its HP is 0. -/
theorem C1_witness :
    take_damage 3 10 ≤ 10 ∧ clamp_heal (take_damage 3 10) 10 4 ≤ 10 ∧
    (core_is_fainted (take_damage 3 10) = true ↔ take_damage 3 10 = 0) :=
  C1_core_hp_bounds 3 10 10 4 (by decide)

/-- C2, counterexample: in the simplified driver a regularly poisoned
battler loses `⌊maxHP/16⌋`, not the claimed 1/8: at 160/160 HP the
residual leaves 150 HP, whereas `160 − 160/8 = 140`. -/
theorem C2_counterexample :
    (srcStatusResidual ⟨160, 160, some SrcStatus.poison, 0⟩).hp = 150 ∧
    (150 : ℤ) ≠ 160 - 160 / 8 := by decide

/-- C2, amended: in the core engine's residual phase (absent Poison Heal)
a regularly poisoned battler (`toxic_counter = 0`) loses
`max(⌊maxHP/8⌋, 1)`; a badly-poisoned battler (counter `N ≥ 1`) loses
`max(⌊maxHP·N/16⌋, 1)` and its counter then becomes `min(N+1, 15)`, so it
increments by 1 each tick and saturates at 15.  (The simplified driver
instead deducts `⌊maxHP/16⌋` for regular poison and saturates its u8
counter at 255.) -/
theorem C2_core_poison_residual (hp maxHp n : ℕ) (hn : 0 < n) :
    coreApplyPoisonResidual hp maxHp 0 false = (hp - max (maxHp / 8) 1, 0) ∧
    coreApplyPoisonResidual hp maxHp n false =
      (hp - max (maxHp * n / 16) 1, min (n + 1) 15) ∧
    (coreApplyPoisonResidual hp maxHp n false).2 ≤ 15 ∧
    (15 ≤ n → (coreApplyPoisonResidual hp maxHp n false).2 = 15) := by
  unfold coreApplyPoisonResidual take_damage
  refine ⟨by simp, by simp [hn], by simp [hn], fun h15 => by simp [hn]; omega⟩

/-- Witness for C2: a badly-poisoned battler with 160 max HP and toxic
counter 1 loses 10 HP (160·1/16) and its counter becomes 2. -/
theorem C2_witness : coreApplyPoisonResidual 160 160 1 false = (150, 2) :=
  (C2_core_poison_residual 160 160 1 (by decide)).2.1.trans (by decide)

/-- Helper: the staged speed never exceeds the u16 range. -/
theorem apply_stage_multiplier_le (base : ℕ) (s : ℤ) :
    apply_stage_multiplier base s ≤ 65535 :=
  min_le_right _ _

/-- Helper: at stage 0 the stage multiplier is 1 and the staged speed is
the base speed (for base speeds in the u16 range). -/
theorem apply_stage_multiplier_zero (base : ℕ) (h1 : 1 ≤ base)
    (h2 : base ≤ 65535) : apply_stage_multiplier base 0 = base := by
  unfold apply_stage_multiplier stage_multiplier
  norm_num
  omega

/-- Helper: the core `effective_speed` of a paralysed battler whose
ability is neither Quick Feet nor Slow Start, holding no item, in neutral
weather, is the staged speed halved (floor). -/
theorem effective_speed_paralyzed_aux (p : SpeedPokemon)
    (hpar : p.status = some CoreStatus.paralysis)
    (hqf : hasAbility p "Quick Feet" = false)
    (hss : hasAbility p "Slow Start" = false) (hitem : p.item = none) :
    effective_speed p none = apply_stage_multiplier p.spe p.speStage / 2 := by
  unfold effective_speed misc_abilities.speed_multiplier
    weather_field.weather_speed_multiplier battle_items.speed_modifier
  rw [hpar, hqf, hss, hitem]
  have hle : apply_stage_multiplier p.spe p.speStage / 2 ≤ 65535 := by
    have h := apply_stage_multiplier_le p.spe p.speStage
    omega
  simp
  omega

/-- C5, counterexample: the core engine's paralysis speed factor is 0.5,
not the claimed 0.25.  A paralysed battler with Speed 100, neutral stages,
no relevant ability, no item and no weather has effective speed 50; the
claim's formula `Spe × stage × 0.25` gives 25.  (In the simplified driver
the factor is 0.25 but no ability ever suppresses it.) -/
theorem C5_counterexample :
    effective_speed ⟨100, 0, some CoreStatus.paralysis, "Static", none, false⟩
        none = 50 ∧ (50 : ℕ) ≠ 25 := by
  refine ⟨?_, by decide⟩
  have h := effective_speed_paralyzed_aux
    ⟨100, 0, some CoreStatus.paralysis, "Static", none, false⟩ rfl
    (by decide) (by decide) rfl
  rw [h]
  show apply_stage_multiplier 100 0 / 2 = 50
  rw [apply_stage_multiplier_zero 100 (by norm_num) (by norm_num)]

/-- C5, amended: in the core engine the paralysis penalty on effective
speed is a halving, `⌊staged Spe / 2⌋`, and it is suppressed exactly by
the Quick Feet ability: for every paralysed battler whose ability is
neither Quick Feet nor Slow Start, with no held item and neutral weather,
`effective_speed = staged Spe / 2`.  (The simplified driver uses ×0.25
with no ability suppression at all.) -/
theorem C5_core_paralysis_speed (p : SpeedPokemon)
    (hpar : p.status = some CoreStatus.paralysis)
    (hqf : hasAbility p "Quick Feet" = false)
    (hss : hasAbility p "Slow Start" = false) (hitem : p.item = none) :
    effective_speed p none = apply_stage_multiplier p.spe p.speStage / 2 :=
  effective_speed_paralyzed_aux p hpar hqf hss hitem

/-- Witness for C5 at a concrete paralysed battler: Speed 252, stage 0,
ability Static, no item — effective speed is the staged speed halved. -/
theorem C5_witness :
    effective_speed ⟨252, 0, some CoreStatus.paralysis, "Static", none, false⟩
        none = apply_stage_multiplier 252 0 / 2 :=
  C5_core_paralysis_speed
    ⟨252, 0, some CoreStatus.paralysis, "Static", none, false⟩ rfl
    (by decide) (by decide) rfl

/-- C6, counterexample: the simplified driver's `resolve_move` does not
consult the choice lock.  A battler choice-locked on move 0 who submits
index 1 has move 1 resolved and executed, not the locked move 0. -/
theorem C6_counterexample :
    resolve_move ⟨["tackle", "thunderbolt"], [5, 5], some 0⟩ (some 1) =
      some 1 ∧ (some 1 : Option ℕ) ≠ some 0 := by decide

/-- C6, amended: in the core engine, an attacker with an unconsumed
choice item and a recorded locked move that occurs in its move list has
every submitted move index silently resolved to the locked move's index
(absent an active encore, which would override it the same way).  In the
simplified driver the lock is enforced only through `legal_actions`;
`resolve_move` executes whatever index is submitted. -/
theorem C6_choice_lock_resolution (c : MoveResolveCtx) (l : String) (i : ℕ)
    (hcons : c.itemConsumed = false) (hitem : optItemIsChoice c.item = true)
    (hlock : c.choiceLockMove = some l)
    (hfind : c.moves.findIdx? (fun name => name == l) = some i)
    (henc : c.encoreTurns = 0) :
    ∀ idx, resolved_move_index c idx = i := by
  intro idx
  unfold resolved_move_index
  rw [hcons, hitem, hlock, henc]
  simp [hfind]

/-- Witness for C6: a Choice Band holder locked on "tackle" (second slot)
submitting index 0 has the move resolved to index 1. -/
theorem C6_witness :
    resolved_move_index
      ⟨false, some "Choice Band", some "tackle", 0, none,
        ["thunderbolt", "tackle"]⟩ 0 = 1 :=
  C6_choice_lock_resolution _ "tackle" 1 rfl (by decide) rfl (by decide) rfl 0

/-- Helper: the fold underlying `Iterator::max_by` with the mean-value
comparison returns an element whose mean dominates the seed and every
element of the list. -/
theorem foldl_maxByMean_bound (xs : List RootAgg) (b : RootAgg) :
    aggMean b ≤ aggMean (xs.foldl maxByMeanStep b) ∧
    ∀ e ∈ xs, aggMean e ≤ aggMean (xs.foldl maxByMeanStep b) := by
  induction xs generalizing b with
  | nil => exact ⟨le_refl _, by simp⟩
  | cons x xs ih =>
    simp only [List.foldl_cons]
    have hstep : aggMean b ≤ aggMean (maxByMeanStep b x) ∧
        aggMean x ≤ aggMean (maxByMeanStep b x) := by
      unfold maxByMeanStep
      split
      · next hlt => exact ⟨le_refl _, le_of_lt hlt⟩
      · next hlt => exact ⟨le_of_not_lt hlt, le_refl _⟩
    obtain ⟨h1, h2⟩ := ih (maxByMeanStep b x)
    refine ⟨hstep.1.trans h1, ?_⟩
    intro e he
    rcases List.mem_cons.mp he with rfl | hm
    · exact hstep.2.trans h1
    · exact h2 e hm

/-- C7, counterexample: `best_root_action` selects by mean value, not by
accumulated total.  With aggregates (move 0: total 10 over 20 visits,
mean 1/2) and (move 1: total 6 over 8 visits, mean 3/4), the total-value
rule of the claim picks move 0 (10 > 6), but the function returns move 1
in either hash-map iteration order. -/
theorem C7_counterexample :
    best_root_action
        [⟨some (SrcAction.move 0), 10, 20⟩, ⟨some (SrcAction.move 1), 6, 8⟩]
        [] = some (SrcAction.move 1) ∧
    best_root_action
        [⟨some (SrcAction.move 1), 6, 8⟩, ⟨some (SrcAction.move 0), 10, 20⟩]
        [] = some (SrcAction.move 1) ∧
    (6 : ℚ) < 10 ∧ some (SrcAction.move 1) ≠ some (SrcAction.move 0) := by
  have hm1 : ¬ aggMean ⟨some (SrcAction.move 1), 6, 8⟩ <
      aggMean ⟨some (SrcAction.move 0), 10, 20⟩ := by
    unfold aggMean
    push_cast
    norm_num
  have hm2 : aggMean ⟨some (SrcAction.move 0), 10, 20⟩ <
      aggMean ⟨some (SrcAction.move 1), 6, 8⟩ := by
    unfold aggMean
    push_cast
    norm_num
  refine ⟨?_, ?_, by norm_num, by decide⟩
  · unfold best_root_action
    rw [show List.filter (fun e => decide (0 < e.visits))
        [(⟨some (SrcAction.move 0), 10, 20⟩ : RootAgg),
          ⟨some (SrcAction.move 1), 6, 8⟩] =
        [⟨some (SrcAction.move 0), 10, 20⟩, ⟨some (SrcAction.move 1), 6, 8⟩]
      from rfl]
    unfold maxByMean
    simp only [List.foldl_cons, List.foldl_nil]
    unfold maxByMeanStep
    rw [if_neg hm1]
  · unfold best_root_action
    rw [show List.filter (fun e => decide (0 < e.visits))
        [(⟨some (SrcAction.move 1), 6, 8⟩ : RootAgg),
          ⟨some (SrcAction.move 0), 10, 20⟩] =
        [⟨some (SrcAction.move 1), 6, 8⟩, ⟨some (SrcAction.move 0), 10, 20⟩]
      from rfl]
    unfold maxByMean
    simp only [List.foldl_cons, List.foldl_nil]
    unfold maxByMeanStep
    rw [if_pos hm2]

/-- C7, amended: whenever some root child was visited, `best_root_action`
returns the `my` action of an aggregate whose mean value
(`total_value / visits`) is maximal among all visited aggregates (ties
fall to the hash map's iteration order, which is unspecified); the
accumulated total plays no role beyond the mean. -/
theorem C7_best_root_action_max_mean (children : List RootAgg)
    (unexpanded : List (Option SrcAction × Option SrcAction)) (b : RootAgg)
    (hb : maxByMean (children.filter fun e => decide (0 < e.visits)) = some b) :
    best_root_action children unexpanded = b.act ∧
    ∀ e ∈ children, 0 < e.visits → aggMean e ≤ aggMean b := by
  constructor
  · unfold best_root_action
    rw [hb]
  · intro e he hv
    have hmem : e ∈ children.filter fun e => decide (0 < e.visits) := by
      simp only [List.mem_filter, decide_eq_true_eq]
      exact ⟨he, hv⟩
    cases hfl : children.filter fun e => decide (0 < e.visits) with
    | nil => rw [hfl] at hmem; exact absurd hmem (List.not_mem_nil e)
    | cons y ys =>
      rw [hfl] at hb hmem
      unfold maxByMean at hb
      have hbe : b = ys.foldl maxByMeanStep y := by
        injection hb with h
        exact h.symm
      obtain ⟨h1, h2⟩ := foldl_maxByMean_bound ys y
      rw [hbe]
      rcases List.mem_cons.mp hmem with rfl | hm
      · exact h1
      · exact h2 e hm

/-- Witness for C7 at a single visited aggregate (move 0, total 1 over 2
visits): the function returns that aggregate's action. -/
theorem C7_witness :
    best_root_action [⟨some (SrcAction.move 0), 1, 2⟩] [] =
      some (SrcAction.move 0) :=
  (C7_best_root_action_max_mean [⟨some (SrcAction.move 0), 1, 2⟩] []
    ⟨some (SrcAction.move 0), 1, 2⟩ rfl).1

/-- Helper: every element of `legal_actions` is a `Move` action. -/
theorem legal_actions_move_shape (b : SrcBattlerLA) :
    ∀ a ∈ legal_actions b, ∃ i, a = SrcAction.move i := by
  intro a ha
  unfold legal_actions at ha
  split at ha
  · exact absurd ha (List.not_mem_nil a)
  split at ha
  · exact absurd ha (List.not_mem_nil a)
  split at ha
  · split at ha
    · rw [List.mem_singleton] at ha
      exact ⟨_, ha⟩
    · obtain ⟨i, _, hi⟩ := List.mem_map.mp ha
      exact ⟨i, hi.symm⟩
  · obtain ⟨i, _, hi⟩ := List.mem_map.mp ha
    exact ⟨i, hi.symm⟩

/-- Helper: `legal_actions` is empty exactly when no move slot has
positive PP. -/
theorem legal_actions_empty_iff (b : SrcBattlerLA) :
    legal_actions b = [] ↔ ∀ i < b.moves.length, b.movePp.getD i 0 ≤ 0 := by
  have hiff : usable_indices b = [] ↔
      ∀ i < b.moves.length, b.movePp.getD i 0 ≤ 0 := by
    unfold usable_indices
    rw [List.filter_eq_nil_iff]
    constructor
    · intro h i hi
      have := h i (List.mem_range.mpr hi)
      simpa using this
    · intro h i hi
      simpa using h i (List.mem_range.mp hi)
  by_cases hm : b.moves.isEmpty
  · have hlen : b.moves.length = 0 := by
      rw [List.isEmpty_iff] at hm
      simp [hm]
    constructor
    · intro _ i hi
      omega
    · intro _
      unfold legal_actions
      rw [if_pos hm]
  · by_cases hu : (usable_indices b).isEmpty
    · have h1 : legal_actions b = [] := by
        unfold legal_actions
        rw [if_neg hm, if_pos hu]
      have h2 : ∀ i < b.moves.length, b.movePp.getD i 0 ≤ 0 := by
        rw [List.isEmpty_iff] at hu
        exact hiff.mp hu
      constructor
      · intro _
        exact h2
      · intro _
        exact h1
    · have hne : legal_actions b ≠ [] := by
        have husable : usable_indices b ≠ [] := by
          rw [List.isEmpty_iff] at hu
          exact hu
        unfold legal_actions
        rw [if_neg hm, if_neg hu]
        split
        · split
          · simp
          · simpa using husable
        · simpa using husable
      constructor
      · intro h
        exact absurd h hne
      · intro hall
        rw [List.isEmpty_iff] at hu
        exact absurd (hiff.mpr hall) hu

/-- C10: the simplified driver's legal-action enumeration produces `Move`
actions only — never a `Switch`, regardless of the bench — it is empty
exactly when no move slot has positive PP, and consequently every joint
action enumerated by the MCTS (in either mode) carries only `Move`
actions (or the absent action `none`) on both components, so neither the
random policy nor the MCTS can ever voluntarily switch. -/
theorem C10_legal_actions_moves_only (b bOpp : SrcBattlerLA) (mode : MctsMode) :
    (∀ a ∈ legal_actions b, ∃ i, a = SrcAction.move i) ∧
    (legal_actions b = [] ↔ ∀ i < b.moves.length, b.movePp.getD i 0 ≤ 0) ∧
    (∀ j ∈ enumerate_actions (legal_actions b) (legal_actions bOpp) mode,
      (∀ a, j.1 = some a → ∃ i, a = SrcAction.move i) ∧
      (∀ a, j.2 = some a → ∃ i, a = SrcAction.move i)) := by
  refine ⟨legal_actions_move_shape b, legal_actions_empty_iff b, ?_⟩
  intro j hj
  have hshape := legal_actions_move_shape b
  have hshapeOpp := legal_actions_move_shape bOpp
  cases mode with
  | joint =>
    simp only [enumerate_actions] at hj
    obtain ⟨my, hmy, hj2⟩ := List.mem_flatMap.mp hj
    obtain ⟨opp, hopp, hje⟩ := List.mem_map.mp hj2
    subst hje
    constructor
    · intro a ha
      simp only at ha
      subst ha
      by_cases hemp : (legal_actions b).isEmpty
      · rw [if_pos hemp] at hmy
        rw [List.mem_singleton] at hmy
        exact absurd hmy (by simp)
      · rw [if_neg hemp] at hmy
        obtain ⟨x, hx, hxeq⟩ := List.mem_map.mp hmy
        obtain ⟨i, hi⟩ := hshape x hx
        exact ⟨i, by rw [← hi]; exact (Option.some_inj.mp hxeq).symm⟩
    · intro a ha
      simp only at ha
      subst ha
      by_cases hemp : (legal_actions bOpp).isEmpty
      · rw [if_pos hemp] at hopp
        rw [List.mem_singleton] at hopp
        exact absurd hopp (by simp)
      · rw [if_neg hemp] at hopp
        obtain ⟨x, hx, hxeq⟩ := List.mem_map.mp hopp
        obtain ⟨i, hi⟩ := hshapeOpp x hx
        exact ⟨i, by rw [← hi]; exact (Option.some_inj.mp hxeq).symm⟩
  | myActionOnly =>
    simp only [enumerate_actions] at hj
    by_cases hemp : (legal_actions b).isEmpty
    · rw [if_pos hemp] at hj
      rw [List.mem_singleton] at hj
      subst hj
      exact ⟨by intro a ha; exact absurd ha (by simp),
        by intro a ha; exact absurd ha (by simp)⟩
    · rw [if_neg hemp] at hj
      obtain ⟨x, hx, hxeq⟩ := List.mem_map.mp hj
      subst hxeq
      constructor
      · intro a ha
        obtain ⟨i, hi⟩ := hshape x hx
        exact ⟨i, by rw [← hi]; exact (Option.some_inj.mp ha).symm⟩
      · intro a ha
        exact absurd ha (by simp)

end PokemonSim
